import Mathlib

/-
Verification of the news-app backend (users, categories, news, comments over a
relational store). The repository's handlers are shallowly embedded: each
database table is a list of rows inside a `Store`, each handler is a function
from its input and the store to an updated store and a result, and drizzle
query combinators are translated one-for-one (`select ... where eq` becomes
`filter`/`find?`, `update ... set` becomes `map`, `insert ... returning`
appends a row, thrown errors become `Except.error` with the handler's message
string). Timestamps are abstract instants (`Nat`), passed in as `now` where the
source calls `new Date()`; random salts and the sha256 digest of `createUser`
are passed in as explicit parameters.
-/

namespace NewsApp

/-- user role enum (`userRoleEnum` in the db schema). -/
inductive Role where
  | admin
  | user
deriving DecidableEq, Repr

/-- news status enum (`newsStatusEnum`). -/
inductive NewsStatus where
  | draft
  | published
  | archived
deriving DecidableEq, Repr

/-- comment status enum (`commentStatusEnum`). -/
inductive CommentStatus where
  | pending
  | approved
  | rejected
deriving DecidableEq, Repr

/-- A row of `usersTable`. -/
structure User where
  id : Nat
  username : String
  email : String
  password_hash : String
  full_name : Option String
  avatar : Option String
  role : Role
  is_active : Bool
  created_at : Nat
  updated_at : Nat
deriving DecidableEq, Repr

/-- `Omit<User, 'password_hash'>`: the projection login and the read handlers return. -/
structure UserPublic where
  id : Nat
  username : String
  email : String
  full_name : Option String
  avatar : Option String
  role : Role
  is_active : Bool
  created_at : Nat
  updated_at : Nat
deriving DecidableEq, Repr

/-- A row of `categoriesTable`. -/
structure Category where
  id : Nat
  name : String
  slug : String
  description : Option String
  created_at : Nat
  updated_at : Nat
deriving DecidableEq, Repr

/-- A row of `newsTable`. -/
structure News where
  id : Nat
  title : String
  slug : String
  content : String
  excerpt : Option String
  featured_image : Option String
  category_id : Nat
  author_id : Nat
  status : NewsStatus
  views_count : Nat
  published_at : Option Nat
  created_at : Nat
  updated_at : Nat
deriving DecidableEq, Repr

/-- A row of `commentsTable`. -/
structure Comment where
  id : Nat
  content : String
  news_id : Nat
  user_id : Nat
  status : CommentStatus
  created_at : Nat
  updated_at : Nat
deriving DecidableEq, Repr

/-- The relational store: one list of rows per table, plus the serial-id
counters of the primary keys. -/
structure Store where
  users : List User
  categories : List Category
  news : List News
  comments : List Comment
  nextUserId : Nat
  nextNewsId : Nat
  nextCommentId : Nat
deriving DecidableEq, Repr

/-- A freshly migrated store. -/
def Store.empty : Store :=
  { users := [], categories := [], news := [], comments := [],
    nextUserId := 1, nextNewsId := 1, nextCommentId := 1 }

/-- `UPDATE news SET views_count = views_count + 1 WHERE p`: the single atomic
update statement both news read handlers issue before their lookup. -/
def bumpViews (p : News → Bool) (l : List News) : List News :=
  l.map (fun n => if p n then { n with views_count := n.views_count + 1 } else n)

/-- `getNewsById` (news read handlers): increment the views count of the rows
matching the id, then fetch the row; `results[0] || null`. -/
def getNewsById (s : Store) (i : Nat) : Store × Option News :=
  let s2 := { s with news := bumpViews (fun n => n.id == i) s.news }
  (s2, (s2.news.filter (fun n => n.id == i)).head?)

/-- `getNewsBySlug`: same as `getNewsById` with the slug as the key. -/
def getNewsBySlug (s : Store) (slug : String) : Store × Option News :=
  let s2 := { s with news := bumpViews (fun n => n.slug == slug) s.news }
  (s2, (s2.news.filter (fun n => n.slug == slug)).head?)

/-- JavaScript `value || null` on an optional string column: any falsy supplied
value (absent, null, or the empty string) is stored as null. -/
def orNullStr : Option String → Option String
  | some v => if v = "" then none else some v
  | none => none

/-- `createUserInputSchema` (password in the clear; `role` defaults to user at
the validation layer). -/
structure CreateUserInput where
  username : String
  email : String
  password : String
  full_name : Option String := none
  avatar : Option String := none
  role : Role := Role.user
deriving DecidableEq, Repr

/-- `createHash('sha256').update(password + salt).digest('hex') + ':' + salt`:
the stored password hash of `createUser`. The digest function and the random
salt are explicit parameters. -/
def hashPassword (sha256hex : String → String) (salt password : String) : String :=
  sha256hex (password ++ salt) ++ ":" ++ salt

/-- `createUser`: hash the password with a fresh salt, insert the row
(`is_active` and the timestamps come from the column defaults). -/
def createUser (sha256hex : String → String) (salt : String) (now : Nat)
    (input : CreateUserInput) (s : Store) : Store × User :=
  let u : User :=
    { id := s.nextUserId,
      username := input.username,
      email := input.email,
      password_hash := hashPassword sha256hex salt input.password,
      full_name := orNullStr input.full_name,
      avatar := orNullStr input.avatar,
      role := input.role,
      is_active := true,
      created_at := now,
      updated_at := now }
  ({ s with users := s.users ++ [u], nextUserId := s.nextUserId + 1 }, u)

/-- `loginInputSchema`. -/
structure LoginInput where
  email : String
  password : String
deriving DecidableEq, Repr

/-- Drop `password_hash` from a user row (`const \x7b password_hash, ...rest \x7d = user`). -/
def User.toPublic (u : User) : UserPublic :=
  { id := u.id, username := u.username, email := u.email, full_name := u.full_name,
    avatar := u.avatar, role := u.role, is_active := u.is_active,
    created_at := u.created_at, updated_at := u.updated_at }

/-- `login`: look the user up by exact email, refuse inactive users, then
compare the supplied plaintext password against the stored `password_hash`
column with plain string equality (`user.password_hash !== input.password`),
returning the projection without the hash on success and null otherwise. -/
def login (input : LoginInput) (s : Store) : Option UserPublic :=
  match (s.users.filter (fun u => u.email == input.email)).head? with
  | none => none
  | some u =>
    if !u.is_active then none
    else if u.password_hash != input.password then none
    else some u.toPublic

/-- The two database statements a `getNewsById` call issues, as atomic events:
the increment UPDATE and the read-only SELECT. -/
inductive ViewOp where
  | bump (i : Nat)
  | fetch (i : Nat)
deriving DecidableEq, Repr

/-- Effect of one atomic statement on the store. -/
def applyViewOp (s : Store) : ViewOp → Store
  | ViewOp.bump i => { s with news := bumpViews (fun n => n.id == i) s.news }
  | ViewOp.fetch _ => s

/-- A schedule of atomic statements, run in order against the shared store. -/
def runViewOps (s : Store) (l : List ViewOp) : Store :=
  l.foldl applyViewOp s

/-- The statement sequence of one `getNewsById i` call. -/
def viewCall (i : Nat) : List ViewOp :=
  [ViewOp.bump i, ViewOp.fetch i]

/-- `Interleaving threads sched`: `sched` is one possible global order of the
statements of the concurrent `threads`, each thread's own statements staying in
program order. -/
inductive Interleaving : List (List ViewOp) → List ViewOp → Prop where
  | nil : Interleaving [] []
  | drop (ts sched) : Interleaving ts sched → Interleaving ([] :: ts) sched
  | take (op : ViewOp) (t : List ViewOp) (ts1 ts2 : List (List ViewOp))
      (sched : List ViewOp) :
      Interleaving (ts1 ++ t :: ts2) sched →
      Interleaving (ts1 ++ (op :: t) :: ts2) (op :: sched)

/-- `createCommentInputSchema` (it has no status field). -/
structure CreateCommentInput where
  content : String
  news_id : Nat
  user_id : Nat
deriving DecidableEq, Repr

/-- Modelled from the spec: the repository's `createComment` handler body is
only a placeholder declaration under src (its real code is absent; the
declaration and its tests remain). Following the spec, it validates that
`user_id` and `news_id` each reference existing rows, failing with the distinct
NotFound messages its tests expect and inserting nothing on failure, and on
success inserts the comment with status pending always. -/
def newCommentRow (now : Nat) (input : CreateCommentInput) (s : Store) : Comment :=
  { id := s.nextCommentId, content := input.content, news_id := input.news_id,
    user_id := input.user_id, status := CommentStatus.pending,
    created_at := now, updated_at := now }

def createComment (now : Nat) (input : CreateCommentInput) (s : Store) :
    Store × Except String Comment :=
  if (s.users.filter (fun u => u.id == input.user_id)).isEmpty then
    (s, Except.error ("User with id " ++ toString input.user_id ++ " not found"))
  else if (s.news.filter (fun n => n.id == input.news_id)).isEmpty then
    (s, Except.error ("News article with id " ++ toString input.news_id ++ " not found"))
  else
    ({ s with
        comments := s.comments ++ [newCommentRow now input s],
        nextCommentId := s.nextCommentId + 1 },
     Except.ok (newCommentRow now input s))

/-- `createNewsInputSchema` (`status` defaults to draft at the validation layer). -/
structure CreateNewsInput where
  title : String
  slug : String
  content : String
  excerpt : Option String := none
  featured_image : Option String := none
  category_id : Nat
  author_id : Nat
  status : NewsStatus := NewsStatus.draft
  published_at : Option Nat := none
deriving DecidableEq, Repr

/-- The news row `createNews` inserts: `excerpt` and `featured_image` go
through `value || null`, `views_count` starts at 0, `published_at` is an object
and passes `value || null` unchanged. -/
def newNewsRow (now : Nat) (input : CreateNewsInput) (s : Store) : News :=
  { id := s.nextNewsId, title := input.title, slug := input.slug,
    content := input.content,
    excerpt := orNullStr input.excerpt,
    featured_image := orNullStr input.featured_image,
    category_id := input.category_id, author_id := input.author_id,
    status := input.status, views_count := 0,
    published_at := input.published_at,
    created_at := now, updated_at := now }

/-- `createNews`: validate that the category and the author exist and that the
slug is not already taken (each failure with the handler's message), then
insert the row; `excerpt` and `featured_image` go through `value || null`,
`views_count` starts at 0. -/
def createNews (now : Nat) (input : CreateNewsInput) (s : Store) :
    Store × Except String News :=
  if (s.categories.filter (fun c => c.id == input.category_id)).isEmpty then
    (s, Except.error ("Category with id " ++ toString input.category_id ++ " does not exist"))
  else if (s.users.filter (fun u => u.id == input.author_id)).isEmpty then
    (s, Except.error ("User with id " ++ toString input.author_id ++ " does not exist"))
  else if !(s.news.filter (fun n => n.slug == input.slug)).isEmpty then
    (s, Except.error ("News with slug '" ++ input.slug ++ "' already exists"))
  else
    ({ s with news := s.news ++ [newNewsRow now input s], nextNewsId := s.nextNewsId + 1 },
     Except.ok (newNewsRow now input s))

/-- `updateNewsInputSchema`: an outer `none` is an omitted field; for the
nullable columns an inner `none` is an explicit null. -/
structure UpdateNewsInput where
  id : Nat
  title : Option String := none
  slug : Option String := none
  content : Option String := none
  excerpt : Option (Option String) := none
  featured_image : Option (Option String) := none
  category_id : Option Nat := none
  status : Option NewsStatus := none
  published_at : Option (Option Nat) := none
deriving DecidableEq, Repr

/-- The `updateData` object of `updateNews`: every field present in the input
replaces the column (`if (input.x !== undefined) updateData.x = input.x`), and
`updated_at` is always set to the current instant. -/
def applyNewsUpdate (now : Nat) (input : UpdateNewsInput) (n : News) : News :=
  { n with
    title := input.title.getD n.title,
    slug := input.slug.getD n.slug,
    content := input.content.getD n.content,
    excerpt := input.excerpt.getD n.excerpt,
    featured_image := input.featured_image.getD n.featured_image,
    category_id := input.category_id.getD n.category_id,
    status := input.status.getD n.status,
    published_at := input.published_at.getD n.published_at,
    updated_at := now }

/-- The category-existence check of `updateNews`, performed only when
`category_id` was supplied. -/
def updateCatMissing (input : UpdateNewsInput) (s : Store) : Bool :=
  match input.category_id with
  | some cid => (s.categories.filter (fun c => c.id == cid)).isEmpty
  | none => false

/-- The duplicate-slug check of `updateNews`, performed only when `slug` was
supplied: a conflict is a row with the same slug and a different id. -/
def updateSlugTaken (input : UpdateNewsInput) (s : Store) : Bool :=
  match input.slug with
  | some sl => !(s.news.filter (fun n => n.slug == sl && !(n.id == input.id))).isEmpty
  | none => false

/-- The UPDATE ... WHERE id statement of `updateNews`: the matching rows get
the partial update applied, every other row is untouched. -/
def updatedNewsRows (now : Nat) (input : UpdateNewsInput) (s : Store) : List News :=
  s.news.map (fun n => if n.id == input.id then applyNewsUpdate now input n else n)

/-- `updateNews`: check the row exists, check a supplied category exists, check
a supplied slug is not used by a different row, then apply the partial update;
`result[0]` of the returning clause is the updated row (an out-of-range
`result[0]` would be undefined in the source; that branch is unreachable as
existence was checked first). -/
def updateNews (now : Nat) (input : UpdateNewsInput) (s : Store) :
    Store × Except String News :=
  if (s.news.filter (fun n => n.id == input.id)).isEmpty then
    (s, Except.error ("News article with id " ++ toString input.id ++ " not found"))
  else if updateCatMissing input s then
    (s, Except.error ("Category with id " ++ toString (input.category_id.getD 0) ++ " not found"))
  else if updateSlugTaken input s then
    (s, Except.error ("News article with slug '" ++ (input.slug.getD "") ++ "' already exists"))
  else
    ({ s with news := updatedNewsRows now input s },
     match ((updatedNewsRows now input s).filter (fun n => n.id == input.id)).head? with
     | some n => Except.ok n
     | none => Except.error "undefined")

/-- `deleteCategory`: return false if the id is absent, return false without
deleting if any news row references the category, otherwise delete it and
return whether the delete statement touched a row. -/
def deleteCategory (s : Store) (i : Nat) : Store × Bool :=
  if (s.categories.filter (fun c => c.id == i)).isEmpty then
    (s, false)
  else if !(s.news.filter (fun n => n.category_id == i)).isEmpty then
    (s, false)
  else
    ({ s with categories := s.categories.filter (fun c => !(c.id == i)) },
     decide (0 < (s.categories.filter (fun c => c.id == i)).length))

/-- Postgres LIKE pattern matching over character lists: `%` matches any
sequence, `_` matches exactly one character, the default escape character `\`
makes the following pattern character match itself literally (so `\%`, `\_`
and `\\` match the characters `%`, `_` and `\`), and any other pattern
character matches itself. A pattern ending in a lone escape character is an
error in Postgres ("LIKE pattern must not end with escape character") and is
modelled as matching nothing; the handler's `%query%` pattern always ends in
`%`, so that case is unreachable from it. -/
def like : List Char → List Char → Bool
  | [], s => s.isEmpty
  | c :: ps, s =>
    if c = '\\' then
      match ps with
      | [] => false
      | d :: ps2 =>
        match s with
        | [] => false
        | e :: s2 => (d == e) && like ps2 s2
    else if c = '%' then s.tails.any (fun t => like ps t)
    else
      match s with
      | [] => false
      | d :: s2 => (if c = '_' then true else c == d) && like ps s2

/-- Postgres ILIKE: LIKE after lowercasing both the pattern and the operand. -/
def ilikeMatch (pattern s : String) : Bool :=
  like (pattern.toList.map Char.toLower) (s.toList.map Char.toLower)

/-- `l` contains no LIKE wildcard and no escape character: on such pattern
text every character matches only itself. -/
def noMeta (l : List Char) : Bool :=
  l.all (fun c => c ≠ '%' && c ≠ '_' && c ≠ '\\')

/-- Case-insensitive substring containment, the reading of the specification
("case-insensitive substring match"). -/
def containsCI (q s : String) : Bool :=
  decide ((q.toList.map Char.toLower) <:+: (s.toList.map Char.toLower))

/-- Whether `a` may precede `b` under `ORDER BY published_at DESC` (nulls first,
as Postgres orders descending). -/
def pubDescBefore (a b : News) : Bool :=
  match a.published_at, b.published_at with
  | none, _ => true
  | some _, none => false
  | some x, some y => y ≤ x

/-- Insertion step of the `ORDER BY published_at DESC` sort. -/
def insertPubDesc (a : News) : List News → List News
  | [] => [a]
  | b :: l => if pubDescBefore a b then a :: b :: l else b :: insertPubDesc a l

/-- Stable sort realising `ORDER BY published_at DESC`. -/
def sortPubDesc : List News → List News
  | [] => []
  | a :: l => insertPubDesc a (sortPubDesc l)

/-- `searchNewsInputSchema` (limit and offset defaults already applied by the
validation layer). -/
structure SearchNewsInput where
  query : String
  category_id : Option Nat := none
  limit : Nat := 20
  offset : Nat := 0
deriving DecidableEq, Repr

/-- The row condition of `searchNews`: the inner joins with categories and
users on their primary keys (a join on a unique key reduces to existence of
the referenced row), the restriction to published rows, the ILIKE match of
title or content against the pattern `%query%` built by string interpolation,
and the optional category filter. -/
def searchCond (input : SearchNewsInput) (s : Store) (n : News) : Bool :=
  (s.categories.any (fun c => c.id == n.category_id)) &&
  (s.users.any (fun u => u.id == n.author_id)) &&
  (n.status == NewsStatus.published) &&
  (ilikeMatch ("%" ++ input.query ++ "%") n.title ||
    ilikeMatch ("%" ++ input.query ++ "%") n.content) &&
  (match input.category_id with
   | some cid => n.category_id == cid
   | none => true)

/-- `searchNews`: the rows passing `searchCond`, ordered by published_at
descending and paginated. -/
def searchNews (input : SearchNewsInput) (s : Store) : List News :=
  ((sortPubDesc (s.news.filter (searchCond input s))).drop input.offset).take input.limit

/-- The row condition the specification asserts, in its own words: published,
title or content contains the query as a case-insensitive substring, and the
optional category filter. -/
def searchSpecCond (input : SearchNewsInput) (n : News) : Bool :=
  (n.status == NewsStatus.published) &&
  (containsCI input.query n.title || containsCI input.query n.content) &&
  (match input.category_id with
   | some cid => n.category_id == cid
   | none => true)

/-- The search behaviour the specification asserts: exactly the rows passing
`searchSpecCond`, ordered by published_at descending and paginated. -/
def searchNewsSpec (input : SearchNewsInput) (s : Store) : List News :=
  ((sortPubDesc (s.news.filter (searchSpecCond input))).drop input.offset).take input.limit

/-- A demonstration user row. -/
def demoUser : User :=
  { id := 1, username := "alice", email := "a@x.io", password_hash := "ph",
    full_name := none, avatar := none, role := Role.user, is_active := true,
    created_at := 0, updated_at := 0 }

/-- A demonstration category row. -/
def demoCategory : Category :=
  { id := 1, name := "Tech", slug := "tech", description := none,
    created_at := 0, updated_at := 0 }

/-- A demonstration published news row. -/
def demoNews : News :=
  { id := 1, title := "Alpha", slug := "alpha", content := "Body",
    excerpt := none, featured_image := none, category_id := 1, author_id := 1,
    status := NewsStatus.published, views_count := 0, published_at := some 5,
    created_at := 0, updated_at := 0 }

/-- A demonstration draft news row (distinct id and slug). -/
def demoDraft : News :=
  { id := 2, title := "Beta", slug := "beta", content := "Text",
    excerpt := none, featured_image := none, category_id := 1, author_id := 1,
    status := NewsStatus.draft, views_count := 3, published_at := none,
    created_at := 0, updated_at := 0 }

/-- A demonstration store holding the rows above. -/
def demoStore : Store :=
  { users := [demoUser], categories := [demoCategory],
    news := [demoNews, demoDraft], comments := [],
    nextUserId := 2, nextNewsId := 3, nextCommentId := 1 }

/-- A stand-in for the sha256 hex digest, used to run the handlers on concrete
input (the digest's value is irrelevant to the properties proved here). -/
def demoDigest : String → String := fun _ => "d9a1"

/-- A concrete salt for running `createUser`. -/
def demoSalt : String := "5f3c"

/-- A concrete registration input. -/
def demoCreateUserInput : CreateUserInput :=
  { username := "alice", email := "a@x.io", password := "secret123" }

/-- A concrete createNews input supplying empty strings for the nullable text
fields. -/
def demoEmptyTextInput : CreateNewsInput :=
  { title := "T", slug := "t2", content := "c", excerpt := some "",
    featured_image := some "", category_id := 1, author_id := 1 }

/-- A concrete createNews input whose slug collides with the demonstration
store's published row. -/
def demoConflictInput : CreateNewsInput :=
  { title := "X", slug := "alpha", content := "y", category_id := 1, author_id := 1 }

/-- A concrete updateNews input setting row 1's slug to its own current value. -/
def demoSelfSlugUpdate : UpdateNewsInput :=
  { id := 1, slug := some "alpha" }

/-- A concrete updateNews input publishing row 2 (status and published_at
supplied, everything else omitted). -/
def demoPublishUpdate : UpdateNewsInput :=
  { id := 2, status := some NewsStatus.published, published_at := some (some 9) }

/-- A concrete search input whose query is the bare LIKE wildcard. -/
def demoWildInput : SearchNewsInput :=
  { query := "%" }

/- ## General list lemmas -/

theorem head?_filter {α : Type} (p : α → Bool) (l : List α) :
    (l.filter p).head? = l.find? p := by
  induction l with
  | nil => rfl
  | cons a l ih => by_cases h : p a <;> simp [List.filter, List.find?, h, ih]

theorem map_eq_self_of_no_match {α : Type} (p : α → Bool) (g : α → α) (l : List α)
    (h : ∀ a ∈ l, p a = false) :
    l.map (fun a => if p a then g a else a) = l := by
  induction l with
  | nil => rfl
  | cons a l ih =>
    have ha := h a (by simp)
    simp [ha, ih (fun b hb => h b (by simp [hb]))]

theorem filter_isEmpty_true_iff {α : Type} (p : α → Bool) (l : List α) :
    (l.filter p).isEmpty = true ↔ ∀ a ∈ l, p a = false := by
  induction l with
  | nil => simp [List.filter]
  | cons a l ih => by_cases h : p a <;> simp [List.filter, h, ih]

theorem filter_isEmpty_false_iff {α : Type} (p : α → Bool) (l : List α) :
    (l.filter p).isEmpty = false ↔ ∃ a ∈ l, p a = true := by
  rw [← Bool.not_eq_true, filter_isEmpty_true_iff]
  push_neg
  simp [Bool.not_eq_false]

/- ## The view-counter read handlers (getNewsById / getNewsBySlug) -/

theorem bumpViews_find?_id (i : Nat) (l : List News) :
    (bumpViews (fun n => n.id == i) l).find? (fun n => n.id == i)
      = (l.find? (fun n => n.id == i)).map
          (fun n => { n with views_count := n.views_count + 1 }) := by
  have hg : ∀ a : News,
      ((if a.id == i then { a with views_count := a.views_count + 1 } else a).id == i)
        = (a.id == i) := by
    intro a
    cases h : a.id == i
    · rw [if_neg (by simp)]
      exact h
    · rw [if_pos rfl]
      exact h
  unfold bumpViews
  induction l with
  | nil => rfl
  | cons a l ih =>
    rw [List.map_cons, List.find?_cons, List.find?_cons, hg]
    cases hpa : a.id == i
    · exact ih
    · simp
      intro hne
      exact absurd (by simpa using hpa) hne

theorem bumpViews_find?_slug (sl : String) (l : List News) :
    (bumpViews (fun n => n.slug == sl) l).find? (fun n => n.slug == sl)
      = (l.find? (fun n => n.slug == sl)).map
          (fun n => { n with views_count := n.views_count + 1 }) := by
  have hg : ∀ a : News,
      ((if a.slug == sl then { a with views_count := a.views_count + 1 } else a).slug == sl)
        = (a.slug == sl) := by
    intro a
    cases h : a.slug == sl
    · rw [if_neg (by simp)]
      exact h
    · rw [if_pos rfl]
      exact h
  unfold bumpViews
  induction l with
  | nil => rfl
  | cons a l ih =>
    rw [List.map_cons, List.find?_cons, List.find?_cons, hg]
    cases hpa : a.slug == sl
    · exact ih
    · simp
      intro hne
      exact absurd (by simpa using hpa) hne

theorem bumpViews_of_no_match (p : News → Bool) (l : List News)
    (h : ∀ n ∈ l, p n = false) : bumpViews p l = l := by
  unfold bumpViews
  exact map_eq_self_of_no_match p _ l h

/-- C2: for every id (resp. slug) matching an existing news row, getNewsById
(resp. getNewsBySlug) increments exactly the matching row's views_count by one
and returns the post-increment row — with no condition on the row's status —
and for every id/slug matching no row it returns null. -/
theorem getNews_lookup_increments_and_returns (s : Store) (i : Nat) (sl : String) :
    (∀ n, s.news.find? (fun m => m.id == i) = some n →
      (getNewsById s i).2 = some { n with views_count := n.views_count + 1 } ∧
      (getNewsById s i).1.news
        = s.news.map (fun m =>
            if m.id == i then { m with views_count := m.views_count + 1 } else m)) ∧
    (s.news.find? (fun m => m.id == i) = none → (getNewsById s i).2 = none) ∧
    (∀ n, s.news.find? (fun m => m.slug == sl) = some n →
      (getNewsBySlug s sl).2 = some { n with views_count := n.views_count + 1 } ∧
      (getNewsBySlug s sl).1.news
        = s.news.map (fun m =>
            if m.slug == sl then { m with views_count := m.views_count + 1 } else m)) ∧
    (s.news.find? (fun m => m.slug == sl) = none → (getNewsBySlug s sl).2 = none) := by
  refine ⟨fun n hn => ⟨?_, ?_⟩, fun hn => ?_, fun n hn => ⟨?_, ?_⟩, fun hn => ?_⟩
  · show ((bumpViews (fun n => n.id == i) s.news).filter (fun n => n.id == i)).head? = _
    rw [head?_filter, bumpViews_find?_id, hn]
    rfl
  · rfl
  · show ((bumpViews (fun n => n.id == i) s.news).filter (fun n => n.id == i)).head? = _
    rw [head?_filter, bumpViews_find?_id, hn]
    rfl
  · show ((bumpViews (fun n => n.slug == sl) s.news).filter (fun n => n.slug == sl)).head? = _
    rw [head?_filter, bumpViews_find?_slug, hn]
    rfl
  · rfl
  · show ((bumpViews (fun n => n.slug == sl) s.news).filter (fun n => n.slug == sl)).head? = _
    rw [head?_filter, bumpViews_find?_slug, hn]
    rfl

/-- C2 witness: looking up the draft row of the demonstration store by id and
the published row by slug returns them with views_count incremented. -/
theorem getNews_lookup_increments_and_returns_witness :
    (getNewsById demoStore 2).2 = some { demoDraft with views_count := 4 } ∧
    (getNewsBySlug demoStore "alpha").2 = some { demoNews with views_count := 1 } := by
  refine ⟨?_, ?_⟩
  · exact ((getNews_lookup_increments_and_returns demoStore 2 "alpha").1 demoDraft (by rfl)).1
  · exact ((getNews_lookup_increments_and_returns demoStore 2 "alpha").2.2.1 demoNews (by rfl)).1

/-- C9: when the id (resp. slug) matches no news row, getNewsById (resp.
getNewsBySlug) returns null and leaves the store completely unchanged: the
unconditional update issued before the lookup touches no other row. -/
theorem getNews_miss_leaves_store_unchanged (s : Store) (i : Nat) (sl : String) :
    ((∀ m ∈ s.news, ¬ m.id = i) → getNewsById s i = (s, none)) ∧
    ((∀ m ∈ s.news, ¬ m.slug = sl) → getNewsBySlug s sl = (s, none)) := by
  constructor
  · intro h
    have hb : bumpViews (fun n => n.id == i) s.news = s.news := by
      apply bumpViews_of_no_match
      intro n hn
      simpa using h n hn
    have hf : s.news.find? (fun n => n.id == i) = none := by
      rw [List.find?_eq_none]
      intro n hn
      simpa using h n hn
    unfold getNewsById
    rw [hb]
    show ({ s with news := s.news }, (List.filter (fun n => n.id == i) s.news).head?) = (s, none)
    rw [head?_filter, hf]
  · intro h
    have hb : bumpViews (fun n => n.slug == sl) s.news = s.news := by
      apply bumpViews_of_no_match
      intro n hn
      simpa using h n hn
    have hf : s.news.find? (fun n => n.slug == sl) = none := by
      rw [List.find?_eq_none]
      intro n hn
      simpa using h n hn
    unfold getNewsBySlug
    rw [hb]
    show ({ s with news := s.news }, (List.filter (fun n => n.slug == sl) s.news).head?) = (s, none)
    rw [head?_filter, hf]

/-- C9 witness: a lookup of an absent id and an absent slug on the
demonstration store returns null and leaves the store as it was. -/
theorem getNews_miss_leaves_store_unchanged_witness :
    getNewsById demoStore 99 = (demoStore, none) ∧
    getNewsBySlug demoStore "zz" = (demoStore, none) := by
  refine ⟨?_, ?_⟩
  · exact (getNews_miss_leaves_store_unchanged demoStore 99 "zz").1 (by decide)
  · exact (getNews_miss_leaves_store_unchanged demoStore 99 "zz").2 (by decide)

/- ## The createUser / login round trip -/

/-- C1: the round trip between createUser's hashing and login's verification
FAILS on the code. createUser stores the salted digest `digest:salt`, but login
compares the plaintext input password to the stored `password_hash` column with
plain string equality, so logging in with the very password a user registered
with returns null even though the account is active and the email matches. -/
theorem createUser_then_login_returns_none :
    (createUser demoDigest demoSalt 0 demoCreateUserInput Store.empty).2.email = "a@x.io" ∧
    (createUser demoDigest demoSalt 0 demoCreateUserInput Store.empty).2.is_active = true ∧
    (createUser demoDigest demoSalt 0 demoCreateUserInput Store.empty).2.password_hash
      ≠ "secret123" ∧
    login { email := "a@x.io", password := "secret123" }
      (createUser demoDigest demoSalt 0 demoCreateUserInput Store.empty).1 = none := by
  refine ⟨rfl, rfl, by decide, by decide⟩

/- ## Concurrent view-counter increments -/

theorem interleaving_perm (ts : List (List ViewOp)) (sched : List ViewOp)
    (h : Interleaving ts sched) : sched.Perm ts.flatten := by
  induction h with
  | nil => simp
  | drop ts sched h ih => simpa using ih
  | take op t ts1 ts2 sched h ih =>
    have e1 : List.flatten (ts1 ++ t :: ts2) = ts1.flatten ++ (t ++ ts2.flatten) := by
      simp [List.flatten_append]
    have e2 : List.flatten (ts1 ++ (op :: t) :: ts2) = ts1.flatten ++ (op :: (t ++ ts2.flatten)) := by
      simp [List.flatten_append]
    rw [e2]
    rw [e1] at ih
    exact (ih.cons op).trans List.perm_middle.symm

theorem runViewOps_count (i : Nat) (l : List ViewOp) :
    ∀ (s : Store) (n : News),
    (∀ op ∈ l, op = ViewOp.bump i ∨ op = ViewOp.fetch i) →
    s.news.find? (fun m => m.id == i) = some n →
    (runViewOps s l).news.find? (fun m => m.id == i)
      = some { n with views_count := n.views_count + l.count (ViewOp.bump i) } := by
  induction l with
  | nil =>
    intro s n _ hn
    simpa using hn
  | cons op l ih =>
    intro s n hmem hn
    rcases hmem op (by simp) with hop | hop
    · subst hop
      have hstep : (applyViewOp s (ViewOp.bump i)).news.find? (fun m => m.id == i)
          = some { n with views_count := n.views_count + 1 } := by
        show (bumpViews (fun m => m.id == i) s.news).find? (fun m => m.id == i) = _
        rw [bumpViews_find?_id, hn]
        rfl
      have hrec := ih (applyViewOp s (ViewOp.bump i))
        { n with views_count := n.views_count + 1 }
        (fun op2 hop2 => hmem op2 (by simp [hop2])) hstep
      show (runViewOps (applyViewOp s (ViewOp.bump i)) l).news.find? (fun m => m.id == i) = _
      rw [hrec]
      simp [List.count_cons]
      omega
    · subst hop
      have hrec := ih (applyViewOp s (ViewOp.fetch i)) n
        (fun op2 hop2 => hmem op2 (by simp [hop2])) hn
      show (runViewOps (applyViewOp s (ViewOp.fetch i)) l).news.find? (fun m => m.id == i) = _
      rw [hrec]
      simp [List.count_cons]

theorem count_join_replicate (i N : Nat) :
    ((List.replicate N (viewCall i)).flatten.count (ViewOp.bump i)) = N ∧
    (∀ op ∈ (List.replicate N (viewCall i)).flatten,
      op = ViewOp.bump i ∨ op = ViewOp.fetch i) := by
  induction N with
  | zero => simp
  | succ N ih =>
    rw [List.replicate_succ, List.flatten_cons]
    constructor
    · rw [List.count_append, ih.1]
      have : List.count (ViewOp.bump i) (viewCall i) = 1 := by
        simp [viewCall, List.count_cons]
      rw [this]
      omega
    · intro op hop
      rcases List.mem_append.mp hop with h1 | h1
      · simp only [viewCall, List.mem_cons, List.mem_singleton] at h1
        rcases h1 with h | h | h
        · exact Or.inl h
        · exact Or.inr h
        · exact absurd h (by simp)
      · exact ih.2 op h1

/-- C3: when N concurrent `getNewsById` calls target the same existing article,
every interleaving of their atomic statements (one increment UPDATE and one
SELECT per call) leaves the article with views_count grown by exactly N: no
increment is lost, because the increment is a single atomic statement against
the store. -/
theorem concurrent_getNewsById_no_lost_updates (s : Store) (i N : Nat)
    (sched : List ViewOp) (n : News)
    (hsched : Interleaving (List.replicate N (viewCall i)) sched)
    (hn : s.news.find? (fun m => m.id == i) = some n) :
    (runViewOps s sched).news.find? (fun m => m.id == i)
      = some { n with views_count := n.views_count + N } := by
  have hperm := interleaving_perm _ _ hsched
  have hc : sched.count (ViewOp.bump i) = N := by
    rw [hperm.count_eq]
    exact (count_join_replicate i N).1
  have hmem : ∀ op ∈ sched, op = ViewOp.bump i ∨ op = ViewOp.fetch i := by
    intro op hop
    exact (count_join_replicate i N).2 op (hperm.mem_iff.mp hop)
  rw [← hc]
  exact runViewOps_count i sched s n hmem hn

/-- C3 witness: two overlapping calls on article 1 of the demonstration store
(schedule: first call's update, second call's update, both selects) leave its
views_count at 2. -/
theorem concurrent_getNewsById_no_lost_updates_witness :
    (runViewOps demoStore
        [ViewOp.bump 1, ViewOp.bump 1, ViewOp.fetch 1, ViewOp.fetch 1]).news.find?
        (fun m => m.id == 1)
      = some { demoNews with views_count := demoNews.views_count + 2 } := by
  refine concurrent_getNewsById_no_lost_updates demoStore 1 2 _ demoNews ?_ (by rfl)
  have h1 : Interleaving [([] : List ViewOp)] [] :=
    Interleaving.drop _ _ Interleaving.nil
  have h2 : Interleaving [[], ([] : List ViewOp)] [] :=
    Interleaving.drop _ _ h1
  have h3 : Interleaving [[], [ViewOp.fetch 1]] [ViewOp.fetch 1] :=
    Interleaving.take (ViewOp.fetch 1) [] [[]] [] [] h2
  have h4 : Interleaving [[ViewOp.fetch 1], [ViewOp.fetch 1]]
      [ViewOp.fetch 1, ViewOp.fetch 1] :=
    Interleaving.take (ViewOp.fetch 1) [] [] [[ViewOp.fetch 1]] [ViewOp.fetch 1] h3
  have h5 : Interleaving [[ViewOp.fetch 1], [ViewOp.bump 1, ViewOp.fetch 1]]
      [ViewOp.bump 1, ViewOp.fetch 1, ViewOp.fetch 1] :=
    Interleaving.take (ViewOp.bump 1) [ViewOp.fetch 1] [[ViewOp.fetch 1]] []
      [ViewOp.fetch 1, ViewOp.fetch 1] h4
  exact Interleaving.take (ViewOp.bump 1) [ViewOp.fetch 1] []
    [[ViewOp.bump 1, ViewOp.fetch 1]]
    [ViewOp.bump 1, ViewOp.fetch 1, ViewOp.fetch 1] h5

/- ## createComment -/

theorem head?_append_left {α : Type} (l1 l2 : List α) (c : α) (h : l1.head? = some c) :
    (l1 ++ l2).head? = some c := by
  cases l1 <;> simp_all

/-- C4: createComment fails with a distinct NotFound error naming the missing
entity when user_id or news_id references no existing row, inserting nothing;
on success the inserted comment always has status pending (the input carries no
status field at all, so any caller-supplied status is ignored). -/
theorem createComment_checks_and_pending (now : Nat) (input : CreateCommentInput)
    (s : Store) :
    ((∀ u ∈ s.users, ¬ u.id = input.user_id) →
      createComment now input s
        = (s, Except.error ("User with id " ++ toString input.user_id ++ " not found"))) ∧
    ((∃ u ∈ s.users, u.id = input.user_id) →
      (∀ n ∈ s.news, ¬ n.id = input.news_id) →
      createComment now input s
        = (s, Except.error ("News article with id " ++ toString input.news_id ++ " not found"))) ∧
    (∀ a b : Nat,
      ("User with id " ++ toString a ++ " not found")
        ≠ ("News article with id " ++ toString b ++ " not found")) ∧
    (∀ (c : Comment) (s2 : Store), createComment now input s = (s2, Except.ok c) →
      c.status = CommentStatus.pending ∧ s2.comments = s.comments ++ [c]) := by
  refine ⟨?_, ?_, ?_, ?_⟩
  · intro h
    have he : (s.users.filter (fun u => u.id == input.user_id)).isEmpty = true := by
      rw [filter_isEmpty_true_iff]
      intro u hu
      simpa using h u hu
    unfold createComment
    rw [if_pos he]
  · intro hex h
    obtain ⟨u, hu, hid⟩ := hex
    have hu2 : (s.users.filter (fun u => u.id == input.user_id)).isEmpty = false := by
      rw [filter_isEmpty_false_iff]
      exact ⟨u, hu, by simp [hid]⟩
    have hn2 : (s.news.filter (fun n => n.id == input.news_id)).isEmpty = true := by
      rw [filter_isEmpty_true_iff]
      intro n hn
      simpa using h n hn
    unfold createComment
    rw [if_neg (by simp [hu2]), if_pos hn2]
  · intro a b hcontra
    have hA : ("User with id " ++ toString a ++ " not found").data.head? = some 'U' := by
      rw [String.data_append, String.data_append]
      exact head?_append_left _ _ _ (head?_append_left _ _ _ rfl)
    have hB : ("News article with id " ++ toString b ++ " not found").data.head?
        = some 'N' := by
      rw [String.data_append, String.data_append]
      exact head?_append_left _ _ _ (head?_append_left _ _ _ rfl)
    rw [hcontra, hB] at hA
    exact absurd hA (by decide)
  · intro c s2 hok
    unfold createComment at hok
    by_cases h1 : (s.users.filter (fun u => u.id == input.user_id)).isEmpty
    · rw [if_pos h1] at hok
      simp at hok
    · rw [if_neg h1] at hok
      by_cases h2 : (s.news.filter (fun n => n.id == input.news_id)).isEmpty
      · rw [if_pos h2] at hok
        simp at hok
      · rw [if_neg h2] at hok
        have hs2 := congrArg Prod.fst hok
        have hc := congrArg Prod.snd hok
        simp only [] at hs2
        simp at hc
        constructor
        · rw [← hc]
          rfl
        · rw [← hs2]
          simp [hc]

/-- C4 witness: on the demonstration store, a comment aimed at the absent news
id 99 by the existing user 1 fails with the message naming 99, and a valid
comment is inserted pending. -/
theorem createComment_checks_and_pending_witness :
    createComment 3 { content := "hi", news_id := 99, user_id := 1 } demoStore
      = (demoStore,
         Except.error ("News article with id " ++ toString 99 ++ " not found")) := by
  exact (createComment_checks_and_pending 3 _ demoStore).2.1
    ⟨demoUser, by decide, rfl⟩ (by decide)

/- ## deleteCategory -/

/-- C7: deleteCategory returns false when the id is absent; returns false and
deletes nothing (neither the category nor any news row) when some news row
references the category; otherwise removes exactly that category and returns
true. -/
theorem deleteCategory_guard (s : Store) (i : Nat) :
    ((∀ c ∈ s.categories, ¬ c.id = i) → deleteCategory s i = (s, false)) ∧
    ((∃ c ∈ s.categories, c.id = i) → (∃ n ∈ s.news, n.category_id = i) →
      deleteCategory s i = (s, false)) ∧
    ((∃ c ∈ s.categories, c.id = i) → (∀ n ∈ s.news, ¬ n.category_id = i) →
      deleteCategory s i
        = ({ s with categories := s.categories.filter (fun c => !(c.id == i)) }, true)) := by
  refine ⟨?_, ?_, ?_⟩
  · intro h
    have he : (s.categories.filter (fun c => c.id == i)).isEmpty = true := by
      rw [filter_isEmpty_true_iff]
      intro c hc
      simpa using h c hc
    unfold deleteCategory
    rw [if_pos he]
  · intro hex hdep
    obtain ⟨c, hc, hci⟩ := hex
    obtain ⟨n, hn, hni⟩ := hdep
    have hc2 : (s.categories.filter (fun c => c.id == i)).isEmpty = false := by
      rw [filter_isEmpty_false_iff]
      exact ⟨c, hc, by simp [hci]⟩
    have hn2 : (s.news.filter (fun n => n.category_id == i)).isEmpty = false := by
      rw [filter_isEmpty_false_iff]
      exact ⟨n, hn, by simp [hni]⟩
    unfold deleteCategory
    rw [if_neg (by simp [hc2]), if_pos (by simp [hn2])]
  · intro hex hnone
    obtain ⟨c, hc, hci⟩ := hex
    have hc2 : (s.categories.filter (fun c => c.id == i)).isEmpty = false := by
      rw [filter_isEmpty_false_iff]
      exact ⟨c, hc, by simp [hci]⟩
    have hn2 : (s.news.filter (fun n => n.category_id == i)).isEmpty = true := by
      rw [filter_isEmpty_true_iff]
      intro n hn
      simpa using hnone n hn
    have hlen : 0 < (s.categories.filter (fun c => c.id == i)).length := by
      exact List.length_pos_of_mem (List.mem_filter.mpr ⟨hc, by simp [hci]⟩)
    unfold deleteCategory
    rw [if_neg (by simp [hc2]), if_neg (by simp [hn2])]
    simp [hlen]

/-- C7 witness: on the demonstration store, category 1 is referenced by news
rows, so deleting it returns false and changes nothing. -/
theorem deleteCategory_guard_witness :
    deleteCategory demoStore 1 = (demoStore, false) := by
  exact (deleteCategory_guard demoStore 1).2.1
    ⟨demoCategory, by decide, rfl⟩ ⟨demoNews, by decide, rfl⟩

/- ## createNews: empty strings for nullable text fields -/

theorem orNullStr_ne_some_empty (o : Option String) : orNullStr o ≠ some "" := by
  cases o with
  | none => simp [orNullStr]
  | some v =>
    by_cases hv : v = "" <;> simp [orNullStr, hv]

/-- C10: when createNews is given the empty string for excerpt or
featured_image, the created row stores null for that field; more generally the
`value || null` coercion makes it impossible for an empty string to be
persisted in either field through createNews. -/
theorem createNews_empty_string_becomes_null (now : Nat) (input : CreateNewsInput)
    (s s2 : Store) (n : News) (h : createNews now input s = (s2, Except.ok n)) :
    (input.excerpt = some "" → n.excerpt = none) ∧
    (input.featured_image = some "" → n.featured_image = none) ∧
    n.excerpt ≠ some "" ∧ n.featured_image ≠ some "" := by
  have hn : newNewsRow now input s = n := by
    unfold createNews at h
    by_cases h1 : (s.categories.filter (fun c => c.id == input.category_id)).isEmpty
    · rw [if_pos h1] at h
      simp at h
    · rw [if_neg h1] at h
      by_cases h2 : (s.users.filter (fun u => u.id == input.author_id)).isEmpty
      · rw [if_pos h2] at h
        simp at h
      · rw [if_neg h2] at h
        by_cases h3 : (s.news.filter (fun m => m.slug == input.slug)).isEmpty
        · rw [if_neg (by simp [h3])] at h
          have := congrArg Prod.snd h
          simpa using this
        · rw [if_pos (by simpa using h3)] at h
          simp at h
  refine ⟨?_, ?_, ?_, ?_⟩
  · intro he
    rw [← hn]
    show orNullStr input.excerpt = none
    rw [he]
    rfl
  · intro he
    rw [← hn]
    show orNullStr input.featured_image = none
    rw [he]
    rfl
  · rw [← hn]
    exact orNullStr_ne_some_empty input.excerpt
  · rw [← hn]
    exact orNullStr_ne_some_empty input.featured_image

/-- C10 witness: creating a news row on the demonstration store with empty
strings supplied for excerpt and featured_image stores null in both fields. -/
theorem createNews_empty_string_becomes_null_witness :
    (newNewsRow 5 demoEmptyTextInput demoStore).excerpt = none ∧
    (newNewsRow 5 demoEmptyTextInput demoStore).featured_image = none := by
  have h := createNews_empty_string_becomes_null 5 demoEmptyTextInput demoStore
    (createNews 5 demoEmptyTextInput demoStore).1
    (newNewsRow 5 demoEmptyTextInput demoStore) (by rfl)
  exact ⟨h.1 rfl, h.2.1 rfl⟩

/- ## updateNews / createNews slug validation -/

theorem find?_updatedNewsRows (now : Nat) (input : UpdateNewsInput) (s : Store) :
    (updatedNewsRows now input s).find? (fun n => n.id == input.id)
      = (s.news.find? (fun n => n.id == input.id)).map (applyNewsUpdate now input) := by
  have hg : ∀ a : News,
      ((if a.id == input.id then applyNewsUpdate now input a else a).id == input.id)
        = (a.id == input.id) := by
    intro a
    cases h : a.id == input.id
    · rw [if_neg (by simp)]
      exact h
    · rw [if_pos rfl]
      exact h
  unfold updatedNewsRows
  induction s.news with
  | nil => rfl
  | cons a l ih =>
    rw [List.map_cons, List.find?_cons, List.find?_cons, hg]
    cases hpa : a.id == input.id
    · exact ih
    · simp

/-- C5: createNews fails with the duplicate-slug Conflict message when the
requested slug (exact, case-sensitive string equality) already belongs to any
news row; updateNews fails NotFound when the id matches no row, fails NotFound
when a supplied category_id references no category, fails with the
duplicate-slug Conflict message exactly when a supplied slug belongs to a
different row, and succeeds when every row carrying the slug is the row being
updated — in particular when a row's slug is set to its own current value. -/
theorem news_slug_uniqueness_on_writes (now : Nat) (s : Store) :
    (∀ input : CreateNewsInput,
      (∃ c ∈ s.categories, c.id = input.category_id) →
      (∃ u ∈ s.users, u.id = input.author_id) →
      (∃ m ∈ s.news, m.slug = input.slug) →
      createNews now input s
        = (s, Except.error ("News with slug '" ++ input.slug ++ "' already exists"))) ∧
    (∀ input : UpdateNewsInput,
      ((∀ m ∈ s.news, ¬ m.id = input.id) →
        updateNews now input s
          = (s, Except.error ("News article with id " ++ toString input.id ++ " not found"))) ∧
      (∀ cid, input.category_id = some cid →
        (∃ m ∈ s.news, m.id = input.id) →
        (∀ c ∈ s.categories, ¬ c.id = cid) →
        updateNews now input s
          = (s, Except.error ("Category with id " ++ toString cid ++ " not found"))) ∧
      (∀ sl, input.slug = some sl →
        (∃ m ∈ s.news, m.id = input.id) →
        (∀ cid2, input.category_id = some cid2 → ∃ c ∈ s.categories, c.id = cid2) →
        ((∃ m ∈ s.news, m.slug = sl ∧ ¬ m.id = input.id) →
          updateNews now input s
            = (s, Except.error ("News article with slug '" ++ sl ++ "' already exists"))) ∧
        ((∀ m ∈ s.news, m.slug = sl → m.id = input.id) →
          ∃ n2, (updateNews now input s).2 = Except.ok n2))) := by
  constructor
  · intro input hcat hauth hslug
    obtain ⟨c, hc, hcid⟩ := hcat
    obtain ⟨u, hu, huid⟩ := hauth
    obtain ⟨m, hm, hms⟩ := hslug
    have h1 : (s.categories.filter (fun c => c.id == input.category_id)).isEmpty = false :=
      (filter_isEmpty_false_iff _ _).mpr ⟨c, hc, by simp [hcid]⟩
    have h2 : (s.users.filter (fun u => u.id == input.author_id)).isEmpty = false :=
      (filter_isEmpty_false_iff _ _).mpr ⟨u, hu, by simp [huid]⟩
    have h3 : (s.news.filter (fun n => n.slug == input.slug)).isEmpty = false :=
      (filter_isEmpty_false_iff _ _).mpr ⟨m, hm, by simp [hms]⟩
    unfold createNews
    rw [if_neg (by simp [h1]), if_neg (by simp [h2]), if_pos (by simp [h3])]
  · intro input
    refine ⟨?_, ?_, ?_⟩
    · intro h
      have h1 : (s.news.filter (fun n => n.id == input.id)).isEmpty = true := by
        rw [filter_isEmpty_true_iff]
        intro m hm
        simpa using h m hm
      unfold updateNews
      rw [if_pos h1]
    · intro cid hcid hex hmiss
      obtain ⟨m, hm, hmid⟩ := hex
      have h1 : (s.news.filter (fun n => n.id == input.id)).isEmpty = false :=
        (filter_isEmpty_false_iff _ _).mpr ⟨m, hm, by simp [hmid]⟩
      have h2 : updateCatMissing input s = true := by
        unfold updateCatMissing
        rw [hcid]
        show (s.categories.filter (fun c => c.id == cid)).isEmpty = true
        rw [filter_isEmpty_true_iff]
        intro c hc
        simpa using hmiss c hc
      unfold updateNews
      rw [if_neg (by simp [h1]), if_pos h2]
      simp [hcid]
    · intro sl hsl hex hcat
      obtain ⟨m, hm, hmid⟩ := hex
      have h1 : (s.news.filter (fun n => n.id == input.id)).isEmpty = false :=
        (filter_isEmpty_false_iff _ _).mpr ⟨m, hm, by simp [hmid]⟩
      have h2 : updateCatMissing input s = false := by
        unfold updateCatMissing
        cases hc : input.category_id with
        | none => rfl
        | some cid2 =>
          obtain ⟨c, hcmem, hcid2⟩ := hcat cid2 hc
          show (s.categories.filter (fun c => c.id == cid2)).isEmpty = false
          exact (filter_isEmpty_false_iff _ _).mpr ⟨c, hcmem, by simp [hcid2]⟩
      constructor
      · intro hdup
        obtain ⟨m2, hm2, hslug2, hneid⟩ := hdup
        have h3 : updateSlugTaken input s = true := by
          unfold updateSlugTaken
          rw [hsl]
          have he : (s.news.filter
              (fun n => n.slug == sl && !(n.id == input.id))).isEmpty = false :=
            (filter_isEmpty_false_iff _ _).mpr ⟨m2, hm2, by simp [hslug2, hneid]⟩
          show (!(s.news.filter (fun n => n.slug == sl && !(n.id == input.id))).isEmpty) = true
          rw [he]
          rfl
        unfold updateNews
        rw [if_neg (by simp [h1]), if_neg (by simp [h2]), if_pos h3]
        simp [hsl]
      · intro hself
        have h3 : updateSlugTaken input s = false := by
          unfold updateSlugTaken
          rw [hsl]
          have he : (s.news.filter
              (fun n => n.slug == sl && !(n.id == input.id))).isEmpty = true := by
            rw [filter_isEmpty_true_iff]
            intro m2 hm2
            by_cases hs2 : m2.slug = sl
            · have hid2 := hself m2 hm2 hs2
              simp [hs2, hid2]
            · simp [hs2]
          show (!(s.news.filter (fun n => n.slug == sl && !(n.id == input.id))).isEmpty) = false
          rw [he]
          rfl
        cases hf : s.news.find? (fun n => n.id == input.id) with
        | none =>
          exact absurd (by simpa using List.find?_eq_none.mp hf m hm) (by simp [hmid])
        | some m0 =>
          have hresult :
              (updateNews now input s).2 = Except.ok (applyNewsUpdate now input m0) := by
            unfold updateNews
            rw [if_neg (by simp [h1]), if_neg (by simp [h2]), if_neg (by simp [h3])]
            show (match ((updatedNewsRows now input s).filter
                    (fun n => n.id == input.id)).head? with
                  | some n => Except.ok n
                  | none => Except.error "undefined") = _
            rw [head?_filter, find?_updatedNewsRows, hf]
            rfl
          exact ⟨_, hresult⟩

/-- C5 witness: on the demonstration store, creating news with the taken slug
"alpha" fails with the Conflict message, and updating row 1's slug to its own
current value "alpha" succeeds. -/
theorem news_slug_uniqueness_on_writes_witness :
    createNews 4 demoConflictInput demoStore
      = (demoStore, Except.error ("News with slug '" ++ "alpha" ++ "' already exists")) ∧
    (∃ n2, (updateNews 4 demoSelfSlugUpdate demoStore).2 = Except.ok n2) := by
  constructor
  · exact (news_slug_uniqueness_on_writes 4 demoStore).1 demoConflictInput
      ⟨demoCategory, by decide, rfl⟩ ⟨demoUser, by decide, rfl⟩
      ⟨demoNews, by decide, rfl⟩
  · exact (((news_slug_uniqueness_on_writes 4 demoStore).2 demoSelfSlugUpdate).2.2
      "alpha" rfl ⟨demoNews, by decide, rfl⟩
      (fun cid2 h => by simp [demoSelfSlugUpdate] at h)).2 (by decide)

/-- C6: on a successful updateNews of an existing row, exactly the supplied
fields are replaced (an omitted field keeps the previous value, a nullable
field supplied as null becomes null), updated_at is always refreshed to the
current instant, all fields no input ever mentions — author_id, views_count,
created_at, and the id — keep their previous values, and every other row of
the table survives unchanged. -/
theorem updateNews_partial_update_frame (now : Nat) (input : UpdateNewsInput)
    (s : Store) (n n2 : News)
    (hfind : s.news.find? (fun m => m.id == input.id) = some n)
    (hok : (updateNews now input s).2 = Except.ok n2) :
    n2.updated_at = now ∧
    n2.id = n.id ∧ n2.author_id = n.author_id ∧ n2.views_count = n.views_count ∧
    n2.created_at = n.created_at ∧
    (input.title = none → n2.title = n.title) ∧
    (∀ v, input.title = some v → n2.title = v) ∧
    (input.slug = none → n2.slug = n.slug) ∧
    (∀ v, input.slug = some v → n2.slug = v) ∧
    (input.content = none → n2.content = n.content) ∧
    (∀ v, input.content = some v → n2.content = v) ∧
    (input.excerpt = none → n2.excerpt = n.excerpt) ∧
    (∀ v, input.excerpt = some v → n2.excerpt = v) ∧
    (input.featured_image = none → n2.featured_image = n.featured_image) ∧
    (∀ v, input.featured_image = some v → n2.featured_image = v) ∧
    (input.category_id = none → n2.category_id = n.category_id) ∧
    (∀ v, input.category_id = some v → n2.category_id = v) ∧
    (input.status = none → n2.status = n.status) ∧
    (∀ v, input.status = some v → n2.status = v) ∧
    (input.published_at = none → n2.published_at = n.published_at) ∧
    (∀ v, input.published_at = some v → n2.published_at = v) ∧
    (∀ m ∈ s.news, ¬ m.id = input.id → m ∈ (updateNews now input s).1.news) := by
  have hmem := List.mem_of_find?_eq_some hfind
  have hp := List.find?_some hfind
  have h1 : (s.news.filter (fun m => m.id == input.id)).isEmpty = false :=
    (filter_isEmpty_false_iff _ _).mpr ⟨n, hmem, hp⟩
  by_cases h2 : updateCatMissing input s
  · exfalso
    unfold updateNews at hok
    rw [if_neg (by simp [h1]), if_pos h2] at hok
    simp at hok
  by_cases h3 : updateSlugTaken input s
  · exfalso
    unfold updateNews at hok
    rw [if_neg (by simp [h1]), if_neg h2, if_pos h3] at hok
    simp at hok
  have hkey : n2 = applyNewsUpdate now input n := by
    unfold updateNews at hok
    rw [if_neg (by simp [h1]), if_neg h2, if_neg h3] at hok
    have hok2 : (match ((updatedNewsRows now input s).filter
            (fun m => m.id == input.id)).head? with
          | some m => Except.ok m
          | none => Except.error "undefined") = Except.ok n2 := hok
    rw [head?_filter, find?_updatedNewsRows, hfind] at hok2
    simpa using hok2.symm
  have hstore : (updateNews now input s).1 = { s with news := updatedNewsRows now input s } := by
    unfold updateNews
    rw [if_neg (by simp [h1]), if_neg h2, if_neg h3]
  subst hkey
  refine ⟨rfl, rfl, rfl, rfl, rfl, ?_, ?_, ?_, ?_, ?_, ?_, ?_, ?_, ?_, ?_, ?_, ?_,
    ?_, ?_, ?_, ?_, ?_⟩
  · intro h
    simp [applyNewsUpdate, h]
  · intro v h
    simp [applyNewsUpdate, h]
  · intro h
    simp [applyNewsUpdate, h]
  · intro v h
    simp [applyNewsUpdate, h]
  · intro h
    simp [applyNewsUpdate, h]
  · intro v h
    simp [applyNewsUpdate, h]
  · intro h
    simp [applyNewsUpdate, h]
  · intro v h
    simp [applyNewsUpdate, h]
  · intro h
    simp [applyNewsUpdate, h]
  · intro v h
    simp [applyNewsUpdate, h]
  · intro h
    simp [applyNewsUpdate, h]
  · intro v h
    simp [applyNewsUpdate, h]
  · intro h
    simp [applyNewsUpdate, h]
  · intro v h
    simp [applyNewsUpdate, h]
  · intro h
    simp [applyNewsUpdate, h]
  · intro v h
    simp [applyNewsUpdate, h]
  · intro m hm hne
    rw [hstore]
    show m ∈ updatedNewsRows now input s
    unfold updatedNewsRows
    exact List.mem_map.mpr ⟨m, hm, by rw [if_neg (by simpa using hne)]⟩

/-- C6 witness: publishing the demonstration store's draft row (supplying only
status and published_at) refreshes updated_at, sets exactly those two fields,
and keeps slug, views_count, author_id and created_at as they were. -/
theorem updateNews_partial_update_frame_witness :
    ∃ n2, (updateNews 7 demoPublishUpdate demoStore).2 = Except.ok n2 ∧
      n2.updated_at = 7 ∧ n2.status = NewsStatus.published ∧
      n2.published_at = some 9 ∧ n2.slug = demoDraft.slug ∧
      n2.views_count = demoDraft.views_count ∧ n2.author_id = demoDraft.author_id ∧
      n2.created_at = demoDraft.created_at := by
  refine ⟨applyNewsUpdate 7 demoPublishUpdate demoDraft, by rfl, ?_⟩
  have h := updateNews_partial_update_frame 7 demoPublishUpdate demoStore demoDraft
    (applyNewsUpdate 7 demoPublishUpdate demoDraft) (by rfl) (by rfl)
  obtain ⟨hu, hid, hau, hvw, hcr, ht1, ht2, hs1, hs2, hc1, hc2, he1, he2, hf1, hf2,
    hg1, hg2, hst1, hst2, hp1, hp2, hfr⟩ := h
  exact ⟨hu, hst2 NewsStatus.published rfl, hp2 (some 9) rfl, hs1 rfl, hvw, hau, hcr⟩

/- ## searchNews: ILIKE pattern matching versus substring containment -/

theorem like_pct_unfold (p : List Char) (s : List Char) :
    like ('%' :: p) s = s.tails.any (fun t => like p t) := by
  cases p <;> cases s <;> rfl

theorem like_plain_nil (c : Char) (p : List Char)
    (hc3 : c ≠ '\\') (hc1 : c ≠ '%') (_hc2 : c ≠ '_') :
    like (c :: p) [] = false := by
  cases p <;> simp [like, hc1, hc3]

theorem like_plain_cons (c : Char) (p : List Char) (d : Char) (s2 : List Char)
    (hc3 : c ≠ '\\') (hc1 : c ≠ '%') (hc2 : c ≠ '_') :
    like (c :: p) (d :: s2) = ((c == d) && like p s2) := by
  cases p <;> simp [like, hc1, hc2, hc3]

theorem like_pct_cons (p : List Char) (s : List Char) :
    like ('%' :: p) s = true ↔ ∃ t, t <:+ s ∧ like p t = true := by
  rw [like_pct_unfold]
  simp [List.any_eq_true, List.mem_tails]

theorem like_nil_pct (s : List Char) : like ['%'] s = true :=
  (like_pct_cons [] s).mpr ⟨[], List.nil_suffix, by decide⟩

theorem like_literal_pct (q : List Char) (hq : noMeta q = true) (s : List Char) :
    like (q ++ ['%']) s = true ↔ q <+: s := by
  induction q generalizing s with
  | nil =>
    simpa using like_nil_pct s
  | cons c q ih =>
    simp only [noMeta, List.all_cons, Bool.and_eq_true, decide_eq_true_eq] at hq
    obtain ⟨⟨⟨hc1, hc2⟩, hc3⟩, hq2⟩ := hq
    have hq3 : noMeta q = true := by simpa [noMeta] using hq2
    cases s with
    | nil =>
      rw [List.cons_append, like_plain_nil _ _ hc3 hc1 hc2]
      simp
    | cons d s2 =>
      rw [List.cons_append, like_plain_cons _ _ _ _ hc3 hc1 hc2]
      simp only [Bool.and_eq_true, beq_iff_eq, List.cons_prefix_cons]
      rw [ih hq3]

theorem infix_iff_via_suffix {α : Type} (q s : List α) :
    q <:+: s ↔ ∃ t, t <:+ s ∧ q <+: t := by
  constructor
  · rintro ⟨v, u, rfl⟩
    exact ⟨q ++ u, ⟨v, by rw [List.append_assoc]⟩, ⟨u, rfl⟩⟩
  · rintro ⟨t, ⟨v, rfl⟩, ⟨u, rfl⟩⟩
    exact ⟨v, u, by rw [List.append_assoc]⟩

theorem like_wrap_iff (q : List Char) (hq : noMeta q = true) (s : List Char) :
    like ('%' :: (q ++ ['%'])) s = true ↔ q <:+: s := by
  rw [like_pct_cons, infix_iff_via_suffix]
  constructor
  · rintro ⟨t, hts, hlike⟩
    exact ⟨t, hts, (like_literal_pct q hq t).mp hlike⟩
  · rintro ⟨t, hts, hpre⟩
    exact ⟨t, hts, (like_literal_pct q hq t).mpr hpre⟩

theorem toLower_shift_toNat (n : Nat) (h1 : 65 ≤ n) (h2 : n ≤ 90) :
    (Char.ofNat (n + 32)).toNat = n + 32 := by
  have hv : Nat.isValidChar (n + 32) := Or.inl (by omega)
  simp only [Char.ofNat, hv, dif_pos, Char.ofNatAux, Char.toNat]
  rfl

theorem toLower_meta_fixed {c m : Char}
    (hm : m.toNat = 37 ∨ m.toNat = 95 ∨ m.toNat = 92)
    (h : c.toLower = m) : c = m := by
  by_cases hc : c.toNat ≥ 65 ∧ c.toNat ≤ 90
  · exfalso
    have h2 : Char.ofNat (c.toNat + 32) = m := by
      simpa [Char.toLower, hc] using h
    have h3 := toLower_shift_toNat c.toNat hc.1 hc.2
    rw [h2] at h3
    omega
  · simpa [Char.toLower, hc] using h

theorem noMeta_map_toLower (l : List Char) (h : noMeta l = true) :
    noMeta (l.map Char.toLower) = true := by
  unfold noMeta at h ⊢
  rw [List.all_map]
  rw [List.all_eq_true] at h ⊢
  intro c hc
  have hcm := h c hc
  simp only [Bool.and_eq_true, decide_eq_true_eq] at hcm
  simp only [Function.comp, Bool.and_eq_true, decide_eq_true_eq]
  exact ⟨⟨fun he => hcm.1.1 (toLower_meta_fixed (Or.inl (by decide)) he),
          fun he => hcm.1.2 (toLower_meta_fixed (Or.inr (Or.inl (by decide))) he)⟩,
         fun he => hcm.2 (toLower_meta_fixed (Or.inr (Or.inr (by decide))) he)⟩

theorem ilike_wrap_eq_containsCI (q s : String) (hq : noMeta q.toList = true) :
    ilikeMatch ("%" ++ q ++ "%") s = containsCI q s := by
  have hpat : ("%" ++ q ++ "%").toList = '%' :: (q.toList ++ ['%']) := by
    show ("%" ++ q ++ "%").data = _
    rw [String.data_append, String.data_append]
    rfl
  unfold ilikeMatch containsCI
  rw [hpat, List.map_cons, List.map_append]
  have h1 : Char.toLower '%' = '%' := by decide
  have h2 : (['%'] : List Char).map Char.toLower = ['%'] := by decide
  rw [h1, h2]
  have hq2 : noMeta (q.toList.map Char.toLower) = true := noMeta_map_toLower _ hq
  have hiff := like_wrap_iff (q.toList.map Char.toLower) hq2 (s.toList.map Char.toLower)
  cases hlike : like ('%' :: (q.toList.map Char.toLower ++ ['%']))
      (s.toList.map Char.toLower)
  · have hno : ¬ (q.toList.map Char.toLower <:+: s.toList.map Char.toLower) := by
      intro hcont
      rw [hiff.mpr hcont] at hlike
      exact Bool.noConfusion hlike
    exact (decide_eq_false hno).symm
  · have hyes := hiff.mp hlike
    exact (decide_eq_true hyes).symm

/-- C8 amended: for queries containing no LIKE wildcard and no escape
character (`%`, `_` or `\`, all of which Postgres ILIKE interprets in the
raw-interpolated pattern), and on a store whose news rows all reference
existing categories and authors (the foreign keys the schema enforces, which
make the handler's inner joins lossless), searchNews returns exactly the
published rows whose title or content contains the query as a
case-insensitive substring, filtered to category_id when supplied, ordered by
published_at descending and paginated — the specification's description
verbatim. -/
theorem searchNews_matches_spec_on_plain_queries (input : SearchNewsInput) (s : Store)
    (hri : ∀ n ∈ s.news, (∃ c ∈ s.categories, c.id = n.category_id) ∧
                         (∃ u ∈ s.users, u.id = n.author_id))
    (hq : noMeta input.query.toList = true) :
    searchNews input s = searchNewsSpec input s := by
  unfold searchNews searchNewsSpec
  have hfeq : s.news.filter (searchCond input s) = s.news.filter (searchSpecCond input) := by
    apply List.filter_congr
    intro n hn
    obtain ⟨⟨c, hc, hcid⟩, ⟨u, hu, huid⟩⟩ := hri n hn
    unfold searchCond searchSpecCond
    have hany1 : s.categories.any (fun c2 => c2.id == n.category_id) = true := by
      rw [List.any_eq_true]
      exact ⟨c, hc, by simp [hcid]⟩
    have hany2 : s.users.any (fun u2 => u2.id == n.author_id) = true := by
      rw [List.any_eq_true]
      exact ⟨u, hu, by simp [huid]⟩
    rw [hany1, hany2, ilike_wrap_eq_containsCI _ _ hq, ilike_wrap_eq_containsCI _ _ hq]
    simp
  rw [hfeq]

/-- C8 amended witness: on the demonstration store, the wildcard-free query
"alp" gives the same result through the handler as through the specification's
substring description (both return the published "Alpha" row). -/
theorem searchNews_matches_spec_on_plain_queries_witness :
    searchNews { query := "alp" } demoStore = searchNewsSpec { query := "alp" } demoStore := by
  exact searchNews_matches_spec_on_plain_queries _ demoStore (by decide) (by decide)

/-- C8 counterexample: the claim as stated fails on queries containing LIKE
wildcards or escapes, because the handler interpolates the raw query into the
ILIKE pattern without escaping. With query "%" the handler returns the
published demonstration row even though neither its title nor its content
contains "%" as a substring, while the specification's substring reading
returns nothing. -/
theorem searchNews_wildcard_query_diverges :
    searchNews demoWildInput demoStore = [demoNews] ∧
    searchNewsSpec demoWildInput demoStore = [] ∧
    containsCI demoWildInput.query demoNews.title = false ∧
    containsCI demoWildInput.query demoNews.content = false ∧
    demoNews.status = NewsStatus.published := by
  decide

end NewsApp
